import Mathlib

/-!
Verification of the Plantopia DEM-to-heightmap pipeline.

The pipeline lives in `backend/app.py` (`process_dem_to_heightmap`, the
Flask route handlers) and in the standalone scripts
`Assets/StreamingAssets/Scripts/dem_processor.py` and
`dem_processor_alt.py`.  Raster samples are embedded as exact rationals
(`ℚ`); the float64 operations exercised by the statements below
(normalisation formulas, order-1 interpolation weights, the `v/255*65535`
rescale, truncating casts) are modelled in exact arithmetic, and NaN is
modelled explicitly as `Option.none`.  The scattered-data interpolation
performed by `scipy.interpolate.griddata` is an external collaborator; it
enters the embedding as an explicit parameter (`interp`), constrained
only by documented interface facts stated as hypotheses where a theorem
needs them.
-/

namespace Plantopia

/-- A raster grid of height `H` and width `W` holding exact rational samples,
row-major: `g i j` is the sample at row `i`, column `j`. -/
abbrev Grid (H W : ℕ) := Fin H → Fin W → ℚ

/-- A grid whose cells may be missing: `none` models a NaN cell (the
`np.where(data == nodata, np.nan, data)` masking step). -/
abbrev MaskedGrid (H W : ℕ) := Fin H → Fin W → Option ℚ

/-! ### Quantizer stages

`backend/app.py` line 285: `(normalized * 255).astype(np.uint8)` and
`dem_processor.py` line 59: `(resized * 65535).astype(np.uint16)`.
For the nonnegative inputs the pipeline feeds these casts (normalized
values in `[0,1]`), the C-style float-to-unsigned cast truncates toward
zero, i.e. takes the floor. -/

/-- 8-bit quantization stage of `process_dem_to_heightmap` in
`backend/app.py`: `(normalized * 255).astype(np.uint8)`. -/
def quant8 (x : ℚ) : ℕ := (⌊x * 255⌋).toNat

/-- 16-bit quantization stage of `dem_processor.py`:
`(resized * 65535).astype(np.uint16)`. -/
def quant16 (x : ℚ) : ℕ := (⌊x * 65535⌋).toNat

/-- The quantizer as the spec words it (round, then clamp to `[0,255]`);
written from the spec's sentence for comparison with `quant8`. -/
def specQuant8 (x : ℚ) : ℕ := min 255 (max 0 (round (x * 255))).toNat

/-- The quantizer as the spec words it (round, then clamp to `[0,65535]`);
written from the spec's sentence for comparison with `quant16`. -/
def specQuant16 (x : ℚ) : ℕ := min 65535 (max 0 (round (x * 65535))).toNat

/-- C2 counterexample: at the normalized cell value `1/2` the code's
truncating cast yields `127` (8-bit) and `32767` (16-bit) while the
spec's round-and-clamp yields `128` and `32768`, so the quantizer does
not round as claimed. -/
theorem quant_truncates_not_rounds :
    quant8 (1/2) = 127 ∧ specQuant8 (1/2) = 128 ∧
    quant16 (1/2) = 32767 ∧ specQuant16 (1/2) = 32768 ∧
    quant8 (1/2) ≠ specQuant8 (1/2) ∧ quant16 (1/2) ≠ specQuant16 (1/2) := by
  norm_num [quant8, quant16, specQuant8, specQuant16, round_eq]
  decide

/-- C2 (amended): for every normalized input `x ∈ [0,1]` the quantizer
produces the floor (truncation) of `x*255` at 8-bit depth and of
`x*65535` at 16-bit depth; both outputs automatically lie in `[0,255]`
resp. `[0,65535]` (the code performs no clamping), and the endpoints map
to `0`, `255` and `65535` exactly. -/
theorem quant_floor_spec (x : ℚ) (h0 : 0 ≤ x) (h1 : x ≤ 1) :
    quant8 x = (⌊x * 255⌋).toNat ∧ quant8 x ≤ 255 ∧
    quant16 x = (⌊x * 65535⌋).toNat ∧ quant16 x ≤ 65535 ∧
    quant8 0 = 0 ∧ quant8 1 = 255 ∧ quant16 0 = 0 ∧ quant16 1 = 65535 := by
  refine ⟨rfl, ?_, rfl, ?_, by norm_num [quant8], by norm_num [quant8]; decide,
    by norm_num [quant16], by norm_num [quant16]; decide⟩
  · have hx : x * 255 ≤ 255 := by nlinarith
    have hf : ⌊x * 255⌋ ≤ (255 : ℤ) := by
      calc ⌊x * 255⌋ ≤ ⌊(255 : ℚ)⌋ := Int.floor_le_floor hx
        _ = 255 := by norm_num
    exact Int.toNat_le.mpr hf
  · have hx : x * 65535 ≤ 65535 := by nlinarith
    have hf : ⌊x * 65535⌋ ≤ (65535 : ℤ) := by
      calc ⌊x * 65535⌋ ≤ ⌊(65535 : ℚ)⌋ := Int.floor_le_floor hx
        _ = 65535 := by norm_num
    exact Int.toNat_le.mpr hf

/-- Witness for `quant_floor_spec` at the concrete input `1/2`. -/
theorem quant_floor_spec_witness :
    (0 : ℚ) ≤ 1/2 ∧ (1/2 : ℚ) ≤ 1 ∧
    (quant8 (1/2) = (⌊(1/2 : ℚ) * 255⌋).toNat ∧ quant8 (1/2) ≤ 255 ∧
     quant16 (1/2) = (⌊(1/2 : ℚ) * 65535⌋).toNat ∧ quant16 (1/2) ≤ 65535 ∧
     quant8 0 = 0 ∧ quant8 1 = 255 ∧ quant16 0 = 0 ∧ quant16 1 = 65535) :=
  ⟨one_half_pos.le, one_half_lt_one.le,
    quant_floor_spec (1/2) one_half_pos.le one_half_lt_one.le⟩

/-! ### Backend 16-bit rescale

`backend/app.py` line 292: the 8-bit resized image is rescaled with
`(np.array(image) / 255.0 * 65535).astype(np.uint16)`.  In float64,
`v/255.0*65535.0` is exactly `257*v` for every `v ∈ 0..255`
(`65535 = 255 * 257`), so the rational model is exact here. -/

/-- Per-pixel 16-bit rescale of `backend/app.py`:
`(pixel / 255.0 * 65535).astype(np.uint16)` applied to an 8-bit pixel. -/
def to16bit (v : ℕ) : ℕ := (⌊((v : ℚ) / 255) * 65535⌋).toNat

/-- C10: every pixel of the 16-bit heightmap produced by the backend's
`process_dem_to_heightmap` has the form `257 * k` with `k ∈ [0,255]`:
the rescale stage receives an 8-bit (`uint8`, mode `L`) image, and
`v/255*65535 = 257*v` exactly, so at most 256 distinct gray levels
occur. -/
theorem backend16_pixels_multiple_of_257 (H W : ℕ)
    (img : Fin H → Fin W → Fin 256) (i : Fin H) (j : Fin W) :
    ∃ k : ℕ, k ≤ 255 ∧ to16bit (img i j) = 257 * k := by
  refine ⟨(img i j).val, Nat.lt_succ_iff.mp (img i j).isLt, ?_⟩
  unfold to16bit
  have h : ((img i j : ℕ) : ℚ) / 255 * 65535 = ((257 * (img i j : ℕ) : ℕ) : ℚ) := by
    push_cast
    ring
  rw [h, Int.floor_natCast, Int.toNat_natCast]

/-! ### HTTP glue: `/api/process-dem` validation and `/api/cleanup`

The filesystem is modelled as the list of paths that currently exist
(for cleanup) or as a pure existence predicate (for the process-dem
route); the handlers are embedded following `backend/app.py` line by
line. -/

/-- Supported heightmap resolutions (`backend/app.py`, `process_dem`). -/
def supportedResolutions : List ℕ := [129, 257, 513, 1025, 2049, 4097]

/-- Stored-DEM file name for a file id: `dem_<file_id>.tif`. -/
def demFileName (fid : String) : String := "dem_" ++ fid ++ ".tif"

/-- Generated-heightmap file name: `dem_<file_id>_heightmap.png`. -/
def heightmapFileName (fid : String) : String := "dem_" ++ fid ++ "_heightmap.png"

/-- Full path of a name inside the upload folder (`os.path.join(UPLOAD_FOLDER, ...)`). -/
def uploadPath (name : String) : String := "temp/" ++ name

/-- Outcome of the `/api/process-dem` handler, up to the point where the
pipeline itself would start: `proceed p` records that validation passed and
the pipeline is invoked on the existing file `p`. -/
inductive DemResponse
  | badRequest (msg : String)
  | notFound (msg : String)
  | proceed (path : String)
deriving DecidableEq

/-- The `/api/process-dem` handler of `backend/app.py` up to the start of
the pipeline: check `file_id` is present, validate `resolution` against the
supported set, then (and only then) consult the filesystem.  The second
component records, in order, every filesystem path the handler accessed. -/
def processDemRoute (fileId : Option String) (resolution : ℕ)
    (fsExists : String → Bool) : DemResponse × List String :=
  match fileId with
  | none => (.badRequest "file_id is required", [])
  | some fid =>
      if resolution ∈ supportedResolutions then
        let p := uploadPath (demFileName fid)
        if fsExists p then (.proceed p, [p])
        else (.notFound ("DEM file not found: " ++ fid), [p])
      else (.badRequest "Invalid resolution. Must be 2^n + 1", [])

/-- C7: a request whose resolution is outside the supported set
`{129, 257, 513, 1025, 2049, 4097}` is rejected with the invalid-resolution
client error and the handler performs no filesystem access at all (the
access log is empty). -/
theorem processDem_rejects_unsupported_resolution (fid : String)
    (resolution : ℕ) (fsExists : String → Bool)
    (h : resolution ∉ supportedResolutions) :
    processDemRoute (some fid) resolution fsExists
      = (.badRequest "Invalid resolution. Must be 2^n + 1", []) := by
  simp [processDemRoute, h]

/-- Witness for `processDem_rejects_unsupported_resolution` at the spec's
example input `resolution = 500`. -/
theorem processDem_rejects_unsupported_resolution_witness :
    (500 ∉ supportedResolutions) ∧
    processDemRoute (some "abc") 500 (fun _ => true)
      = (.badRequest "Invalid resolution. Must be 2^n + 1", []) :=
  ⟨by decide,
    processDem_rejects_unsupported_resolution "abc" 500 (fun _ => true) (by decide)⟩

/-- `os.remove` in the list-of-existing-paths filesystem model. -/
def removeFile (fs : List String) (p : String) : List String :=
  fs.filter (fun q => q ≠ p)

/-- One iteration of the cleanup loop of `backend/app.py`: if the file
exists it is removed and its name appended to `deleted`. The state is
`(filesystem, deleted)`. -/
def cleanupStep (st : List String × List String) (name : String) :
    List String × List String :=
  let path := uploadPath name
  if path ∈ st.1 then (removeFile st.1 path, st.2 ++ [name]) else st

/-- The `/api/cleanup` handler of `backend/app.py`: iterate over the two
patterns `dem_<id>.tif`, `dem_<id>_heightmap.png`, deleting each file that
exists; returns the new filesystem and the `deleted` list of the response. -/
def cleanupRoute (fs : List String) (fid : String) :
    List String × List String :=
  [demFileName fid, heightmapFileName fid].foldl cleanupStep (fs, [])

lemma not_mem_removeFile (fs : List String) (p : String) :
    p ∉ removeFile fs p := by
  simp [removeFile]

lemma not_mem_removeFile_of_not_mem {fs : List String} {q : String}
    (p : String) (h : q ∉ fs) : q ∉ removeFile fs p := by
  intro hq
  exact h (List.mem_of_mem_filter hq)

lemma cleanupStep_removes (st : List String × List String) (name : String) :
    uploadPath name ∉ (cleanupStep st name).1 := by
  unfold cleanupStep
  by_cases h : uploadPath name ∈ st.1
  · simpa [h] using not_mem_removeFile st.1 (uploadPath name)
  · simpa [h] using h

lemma cleanupStep_preserves_absent {st : List String × List String}
    {q : String} (name : String) (h : q ∉ st.1) :
    q ∉ (cleanupStep st name).1 := by
  unfold cleanupStep
  by_cases hm : uploadPath name ∈ st.1
  · simpa [hm] using not_mem_removeFile_of_not_mem (uploadPath name) h
  · simpa [hm] using h

/-- C9: cleanup is idempotent — after one invocation for a `file_id`, a
second invocation on the resulting filesystem (which the handler completes
without error in this total model) returns an empty `deleted` list. -/
theorem cleanup_idempotent (fs : List String) (fid : String) :
    (cleanupRoute (cleanupRoute fs fid).1 fid).2 = [] := by
  have h1 : uploadPath (demFileName fid) ∉ (cleanupRoute fs fid).1 := by
    unfold cleanupRoute
    simp only [List.foldl]
    exact cleanupStep_preserves_absent _
      (cleanupStep_removes (fs, []) (demFileName fid))
  have h2 : uploadPath (heightmapFileName fid) ∉ (cleanupRoute fs fid).1 := by
    unfold cleanupRoute
    simp only [List.foldl]
    exact cleanupStep_removes _ (heightmapFileName fid)
  have key : ∀ g : List String, uploadPath (demFileName fid) ∉ g →
      uploadPath (heightmapFileName fid) ∉ g → (cleanupRoute g fid).2 = [] := by
    intro g hg1 hg2
    simp [cleanupRoute, cleanupStep, hg1, hg2]
  exact key _ h1 h2

/-! ### Normalizer

`backend/app.py` lines 276-282 (and the identical block of
`dem_processor.py`): compute the extrema of the gap-filled grid and
rescale by `(x - min) / (max - min)`, collapsing a flat raster to the
all-zero grid.  Grid sizes are written `H+1`, `W+1`: the pipeline never
reaches this stage with an empty raster, and `np.nanmin` is undefined
there. -/

/-- Minimum over all cells (`np.nanmin` on the NaN-free gap-filled grid). -/
def gridMin {H W : ℕ} (g : Grid (H+1) (W+1)) : ℚ :=
  Finset.univ.inf' Finset.univ_nonempty
    (fun p : Fin (H+1) × Fin (W+1) => g p.1 p.2)

/-- Maximum over all cells (`np.nanmax` on the NaN-free gap-filled grid). -/
def gridMax {H W : ℕ} (g : Grid (H+1) (W+1)) : ℚ :=
  Finset.univ.sup' Finset.univ_nonempty
    (fun p : Fin (H+1) × Fin (W+1) => g p.1 p.2)

/-- The Normalizer: `normalized = (elevation_data - min) / (max - min)` when
`max > min`, otherwise `np.zeros_like(elevation_data)`. -/
def normalize {H W : ℕ} (g : Grid (H+1) (W+1)) : Grid (H+1) (W+1) :=
  if gridMin g < gridMax g then
    fun i j => (g i j - gridMin g) / (gridMax g - gridMin g)
  else fun _ _ => 0

/-- C5: the Normalizer outputs `(in - min) / (max - min)` for every cell
when `max > min`, outputs exactly `0` for every cell when `max = min`,
and every output cell lies in `[0, 1]`. -/
theorem normalize_spec {H W : ℕ} (g : Grid (H+1) (W+1))
    (i : Fin (H+1)) (j : Fin (W+1)) :
    (gridMin g < gridMax g →
      normalize g i j = (g i j - gridMin g) / (gridMax g - gridMin g)) ∧
    (gridMin g = gridMax g → normalize g i j = 0) ∧
    0 ≤ normalize g i j ∧ normalize g i j ≤ 1 := by
  have hle : gridMin g ≤ g i j :=
    Finset.inf'_le _ (Finset.mem_univ ((i, j) : Fin (H+1) × Fin (W+1)))
  have hge : g i j ≤ gridMax g :=
    Finset.le_sup' (fun p : Fin (H+1) × Fin (W+1) => g p.1 p.2)
      (Finset.mem_univ ((i, j) : Fin (H+1) × Fin (W+1)))
  refine ⟨fun h => by simp [normalize, h], fun h => by simp [normalize, h], ?_, ?_⟩
  · unfold normalize
    split
    · next h =>
        exact div_nonneg (sub_nonneg.mpr hle) (sub_pos.mpr h).le
    · exact le_refl 0
  · unfold normalize
    split
    · next h =>
        exact (div_le_one (sub_pos.mpr h)).mpr (sub_le_sub_right hge _)
    · exact zero_le_one

/-- A concrete 2×2 grid used as witness input. -/
def demoGrid : Grid 2 2 := fun i j => ![![0, 1], ![2, 3]] i j

/-- Witness for `normalize_spec` on `demoGrid`, with the `max > min` branch
hypothesis discharged concretely. -/
theorem normalize_spec_witness :
    gridMin demoGrid < gridMax demoGrid ∧
    normalize demoGrid 0 0
      = (demoGrid 0 0 - gridMin demoGrid) / (gridMax demoGrid - gridMin demoGrid) ∧
    0 ≤ normalize demoGrid 0 0 ∧ normalize demoGrid 0 0 ≤ 1 :=
  ⟨by decide, (normalize_spec demoGrid 0 0).1 (by decide),
    (normalize_spec demoGrid 0 0).2.2⟩

/-! ### Gap Filler

`backend/app.py` lines 250-273: cells equal to `src.nodata` are turned
into NaN; if any NaN is present, `scipy.interpolate.griddata(coords,
values, (grid_y, grid_x), method='linear', fill_value=...)` re-evaluates
the whole grid, with `fill_value = np.nanmean(values) if len(values) > 0
else 0` substituted wherever the scattered linear interpolation is
undefined.  `griddata` itself is an external collaborator: it enters the
embedding as the parameter `interp`, whose `none` results are the NaN
cells that `fill_value` replaces. -/

/-- Masking step: `np.where(elevation_data == src.nodata, np.nan, ...)`. -/
def maskNoData {H W : ℕ} (raw : Grid H W) (nodata : Option ℚ) :
    MaskedGrid H W :=
  fun i j =>
    match nodata with
    | some s => if raw i j = s then none else some (raw i j)
    | none => some (raw i j)

/-- The known (non-NaN) samples of a masked grid, row-major
(`values = elevation_data[mask]`). -/
def knownVals {H W : ℕ} (m : MaskedGrid H W) : List ℚ :=
  (List.finRange H).flatMap fun i => (List.finRange W).filterMap fun j => m i j

/-- `np.any(np.isnan(elevation_data))`. -/
def anyMissing {H W : ℕ} (m : MaskedGrid H W) : Bool :=
  (List.finRange H).any fun i => (List.finRange W).any fun j => (m i j).isNone

/-- The `fill_value` of the `griddata` call:
`np.nanmean(values) if len(values) > 0 else 0`. -/
def fillValue {H W : ℕ} (m : MaskedGrid H W) : ℚ :=
  if (knownVals m).length = 0 then 0
  else (knownVals m).sum / (knownVals m).length

/-- The Gap Filler: when some cell is NaN, every cell becomes the
scattered-linear-interpolation value where defined and `fillValue` where
undefined; otherwise the grid passes through unchanged. -/
def gapFill {H W : ℕ} (raw : Grid H W) (nodata : Option ℚ)
    (interp : Fin H → Fin W → Option ℚ) : Grid H W :=
  let m := maskNoData raw nodata
  if anyMissing m then fun i j => (interp i j).getD (fillValue m)
  else raw

lemma mem_knownVals {H W : ℕ} {m : MaskedGrid H W} {x : ℚ} :
    x ∈ knownVals m ↔ ∃ i j, m i j = some x := by
  simp [knownVals, List.mem_flatMap, List.mem_filterMap, List.mem_finRange]

lemma knownVals_eq_nil_cell {H W : ℕ} {m : MaskedGrid H W}
    (h : knownVals m = []) (i : Fin H) (j : Fin W) : m i j = none := by
  cases hm : m i j with
  | none => rfl
  | some x =>
      have hx : x ∈ knownVals m := mem_knownVals.mpr ⟨i, j, hm⟩
      simp [h] at hx

lemma anyMissing_of_none {H W : ℕ} {m : MaskedGrid H W} {i : Fin H}
    {j : Fin W} (h : m i j = none) : anyMissing m = true := by
  simp only [anyMissing, List.any_eq_true]
  exact ⟨i, List.mem_finRange i, j, List.mem_finRange j, by simp [h]⟩

lemma maskNoData_none {H W : ℕ} {raw : Grid H W} {s : ℚ} {i : Fin H}
    {j : Fin W} (h : raw i j = s) : maskNoData raw (some s) i j = none := by
  simp [maskNoData, h]

/-- C3: in a grid with a configured sentinel, a missing cell of the Gap
Filler output carries the scattered-linear-interpolation value where that
interpolation is defined; the arithmetic mean of all known values where it
is undefined and known values exist; and `0` when there are no known
values at all (scattered interpolation over an empty sample set being
everywhere undefined). -/
theorem gapFill_missing_cells (H W : ℕ) (raw : Grid H W) (s : ℚ)
    (interp : Fin H → Fin W → Option ℚ) :
    (∀ i j v, raw i j = s → interp i j = some v →
        gapFill raw (some s) interp i j = v) ∧
    (∀ i j, raw i j = s → interp i j = none →
        knownVals (maskNoData raw (some s)) ≠ [] →
        gapFill raw (some s) interp i j
          = (knownVals (maskNoData raw (some s))).sum
              / (knownVals (maskNoData raw (some s))).length) ∧
    (knownVals (maskNoData raw (some s)) = [] →
        (∀ i j, interp i j = none) →
        ∀ i j, gapFill raw (some s) interp i j = 0) := by
  refine ⟨?_, ?_, ?_⟩
  · intro i j v hraw hint
    have hmiss := anyMissing_of_none (maskNoData_none hraw)
    simp [gapFill, hmiss, hint]
  · intro i j hraw hint hne
    have hmiss := anyMissing_of_none (maskNoData_none hraw)
    have hlen : (knownVals (maskNoData raw (some s))).length ≠ 0 :=
      fun h => hne (List.length_eq_zero.mp h)
    simp [gapFill, hmiss, hint, fillValue, hlen]
  · intro hnil hint i j
    have hmiss := anyMissing_of_none
      (knownVals_eq_nil_cell hnil i j)
    simp [gapFill, hmiss, hint i j, fillValue, hnil]

/-- Concrete 2×2 raster with sentinel `-9999` in one corner. -/
def rawA : Grid 2 2 := fun i j => ![![-9999, 100], ![200, 300]] i j

/-- Interpolation results consistent with `griddata(method='linear')` on
`rawA`: the three known sample coordinates `(0,1)`, `(1,0)`, `(1,1)` span a
triangle that does not contain the missing corner `(0,0)`, so the
interpolation is undefined there and reproduces the samples elsewhere. -/
def interpA : Fin 2 → Fin 2 → Option ℚ :=
  fun i j => if i = 0 ∧ j = 0 then none else some (rawA i j)

/-- Witness for `gapFill_missing_cells`: the missing corner of `rawA` is
outside the sample hull, so it receives the mean of the known values. -/
theorem gapFill_missing_cells_witness :
    gapFill rawA (some (-9999)) interpA 0 0
      = (knownVals (maskNoData rawA (some (-9999)))).sum
          / (knownVals (maskNoData rawA (some (-9999)))).length :=
  (gapFill_missing_cells 2 2 rawA (-9999) interpA).2.1 0 0 (by decide)
    (by decide) (by decide)

/-! ### Gap-fill completeness (claim C4) -/

/-- A concrete 3×3 raster whose no-data sentinel is `5`: the corner `(0,0)`
holds the sentinel and the eight known cells alternate between `1` and `9`,
so their mean is `(1+9)*4/8 = 5`. -/
def raw3 : Grid 3 3 := fun i j => ![![5, 1, 9], ![1, 9, 1], ![9, 1, 9]] i j

/-- Interpolation results consistent with `griddata(method='linear')` on
`raw3` with sentinel `5`: the eight known sample coordinates have convex
hull the pentagon `(0,1), (0,2), (2,2), (2,0), (1,0)`, which does not
contain the missing corner `(0,0)` (the corner lies strictly on the far
side of the hull edge `y + x = 1`), so the interpolation is undefined there
and reproduces the samples at the known coordinates. -/
def interp3 : Fin 3 → Fin 3 → Option ℚ :=
  fun i j => if i = 0 ∧ j = 0 then none else some (raw3 i j)

/-- C4 counterexample: the Gap Filler output on `raw3` contains an
occurrence of the declared sentinel `5` — the missing corner falls back to
the mean of the known values, `40/8 = 5`, which coincides with the
sentinel. -/
theorem gapFill_sentinel_occurrence :
    gapFill raw3 (some 5) interp3 0 0 = 5 := by
  have hk : knownVals (maskNoData raw3 (some 5)) = [1, 9, 1, 9, 1, 9, 1, 9] := by
    decide
  have hmiss : anyMissing (maskNoData raw3 (some 5)) = true := by decide
  have hint : interp3 0 0 = none := rfl
  simp only [gapFill, hmiss, if_true, hint, Option.getD_none, fillValue, hk]
  norm_num

/-- Arithmetic mean of a nonempty list stays within any interval bounding
every element. -/
lemma mean_bounds {a b : ℚ} {l : List ℚ} (hne : l ≠ [])
    (h : ∀ x ∈ l, a ≤ x ∧ x ≤ b) :
    a ≤ l.sum / l.length ∧ l.sum / l.length ≤ b := by
  have hpos : 0 < (l.length : ℚ) := by
    exact_mod_cast List.length_pos.mpr hne
  constructor
  · rw [le_div_iff₀ hpos]
    have hlow := List.card_nsmul_le_sum l a (fun x hx => (h x hx).1)
    rw [nsmul_eq_mul] at hlow
    linarith
  · rw [div_le_iff₀ hpos]
    have hhigh := List.sum_le_card_nsmul l b (fun x hx => (h x hx).2)
    rw [nsmul_eq_mul] at hhigh
    linarith

/-- Bound check for an optional interpolation result: defined values must
lie in `[a, b]`. -/
def withinBounds (a b : ℚ) : Option ℚ → Bool
  | none => true
  | some v => decide (a ≤ v) && decide (v ≤ b)

/-- C4 (amended): the Gap Filler output contains no occurrence of the
sentinel provided the sentinel lies strictly outside an interval `[a, b]`
that bounds every known value and every defined interpolation result
(linear interpolation produces convex combinations of known values, so any
`[a, b]` containing the known values qualifies).  Without that proviso the
mean fallback — or an interpolated value — can coincide numerically with
the sentinel, as `gapFill_sentinel_occurrence` shows. -/
theorem gapFill_no_sentinel (H W : ℕ) (raw : Grid H W) (s a b : ℚ)
    (interp : Fin H → Fin W → Option ℚ)
    (hknown : ∀ x ∈ knownVals (maskNoData raw (some s)), a ≤ x ∧ x ≤ b)
    (hinterp : ∀ i j, withinBounds a b (interp i j) = true)
    (hne : knownVals (maskNoData raw (some s)) ≠ [])
    (hs : s < a ∨ b < s) :
    ∀ i j, gapFill raw (some s) interp i j ≠ s := by
  intro i j
  have hout : ∀ x : ℚ, a ≤ x → x ≤ b → x ≠ s := by
    intro x hxa hxb hxs
    subst hxs
    rcases hs with h | h
    · exact absurd hxa (not_le.mpr h)
    · exact absurd hxb (not_le.mpr h)
  by_cases hmiss : anyMissing (maskNoData raw (some s)) = true
  · cases hint : interp i j with
    | some v =>
        have hb := hinterp i j
        rw [hint] at hb
        simp only [withinBounds, Bool.and_eq_true, decide_eq_true_eq] at hb
        simp only [gapFill, hmiss, if_true, hint, Option.getD_some]
        exact hout v hb.1 hb.2
    | none =>
        have hlen : (knownVals (maskNoData raw (some s))).length ≠ 0 :=
          fun h0 => hne (List.length_eq_zero.mp h0)
        have hm := mean_bounds hne hknown
        simp only [gapFill, hmiss, if_true, hint, Option.getD_none, fillValue,
          if_neg hlen]
        exact hout _ hm.1 hm.2
  · have hmiss' : anyMissing (maskNoData raw (some s)) = false :=
      Bool.not_eq_true _ ▸ eq_false_of_ne_true hmiss
    simp only [gapFill, hmiss', Bool.false_eq_true, if_false]
    intro hraw
    exact hmiss (anyMissing_of_none (maskNoData_none hraw))

/-- Witness for `gapFill_no_sentinel` on `rawA` with its sentinel `-9999`,
which lies outside the known-value range `[100, 300]`. -/
theorem gapFill_no_sentinel_witness :
    gapFill rawA (some (-9999)) interpA 0 0 ≠ -9999 :=
  gapFill_no_sentinel 2 2 rawA (-9999) 100 300 interpA (by decide) (by decide)
    (by decide) (Or.inl (by decide)) 0 0

/-! ### Rasterio-path Normalizer (claim C6)

`dem_processor_alt.py`, `process_dem_with_rasterio`: nodata cells become
NaN, the extrema come from `np.nanmin` / `np.nanmax` (which ignore NaN
cells), the flat-raster test selects an all-zero grid, NaN propagates
through the normalisation formula, and `np.nan_to_num(..., nan=0.0)`
finally maps every remaining NaN to `0`. -/

lemma min?_spec {l : List ℚ} {m : ℚ} (h : l.min? = some m) :
    m ∈ l ∧ ∀ x ∈ l, m ≤ x := by
  haveI : Std.Antisymm ((· : ℚ) ≤ ·) := ⟨fun h1 h2 => le_antisymm h1 h2⟩
  exact (List.min?_eq_some_iff (fun a => le_refl a) (fun a b => min_choice a b)
    (fun _ _ _ => le_min_iff)).mp h

lemma max?_spec {l : List ℚ} {m : ℚ} (h : l.max? = some m) :
    m ∈ l ∧ ∀ x ∈ l, x ≤ m := by
  haveI : Std.Antisymm ((· : ℚ) ≤ ·) := ⟨fun h1 h2 => le_antisymm h1 h2⟩
  exact (List.max?_eq_some_iff (fun a => le_refl a) (fun a b => max_choice a b)
    (fun _ _ _ => max_le_iff)).mp h

/-- Normalizer of `process_dem_with_rasterio`: when the raster has at least
one finite cell, `nanmin`/`nanmax` are its extrema over the finite cells;
a flat raster yields all zeros; otherwise each finite cell is normalised
and each NaN cell — NaN having propagated through the formula — becomes
`0` via `nan_to_num`.  When every cell is NaN, `nanmin`/`nanmax` are NaN,
the flat test is false, the formula produces an all-NaN grid and
`nan_to_num` again maps every cell to `0`. -/
def normalizeRasterio {H W : ℕ} (m : MaskedGrid H W) : Grid H W :=
  match (knownVals m).min?, (knownVals m).max? with
  | some mn, some mx =>
      if mx = mn then fun _ _ => 0
      else fun i j =>
        match m i j with
        | some x => (x - mn) / (mx - mn)
        | none => 0
  | _, _ => fun _ _ => 0

/-- C6: the rasterio-path Normalizer takes its extrema over the finite
cells only — `mn` and `mx` bound every finite cell and are themselves
attained by finite cells — and every cell that is still non-finite after
normalisation is mapped to `0`. -/
theorem normalizeRasterio_spec (H W : ℕ) (m : MaskedGrid H W) (mn mx : ℚ)
    (hmn : (knownVals m).min? = some mn)
    (hmx : (knownVals m).max? = some mx) :
    (∀ i j x, m i j = some x → mn ≤ x ∧ x ≤ mx) ∧
    (∃ i j, m i j = some mn) ∧ (∃ i j, m i j = some mx) ∧
    (∀ i j, m i j = none → normalizeRasterio m i j = 0) := by
  obtain ⟨hmem, hlow⟩ := min?_spec hmn
  obtain ⟨hmem', hhigh⟩ := max?_spec hmx
  refine ⟨?_, mem_knownVals.mp hmem, mem_knownVals.mp hmem', ?_⟩
  · intro i j x hx
    have hxk : x ∈ knownVals m := mem_knownVals.mpr ⟨i, j, hx⟩
    exact ⟨hlow x hxk, hhigh x hxk⟩
  · intro i j hnone
    unfold normalizeRasterio
    rw [hmn, hmx]
    by_cases h : mx = mn
    · simp [h]
    · simp [h, hnone]

/-- A concrete masked 2×2 grid with one NaN cell, witness input for C6. -/
def maskedB : MaskedGrid 2 2 := fun i j => ![![some 1, none], ![some 3, some 2]] i j

/-- Witness for `normalizeRasterio_spec` on `maskedB`: its NaN cell `(0,1)`
normalises to `0`. -/
theorem normalizeRasterio_spec_witness :
    normalizeRasterio maskedB 0 1 = 0 :=
  (normalizeRasterio_spec 2 2 maskedB 1 3 (by decide) (by decide)).2.2.2 0 1 rfl

/-! ### Resampler

`dem_processor.py` lines 53-56 (and both branches of
`dem_processor_alt.py`): `ndimage.zoom(normalized, (T/H, T/W), order=1)`.
With scipy's default `grid_mode=False`, output index `i` maps to the
fractional source coordinate `i * (H-1)/(T-1)` (coordinate `0` when
`T = 1`, which the ℚ convention `x/0 = 0` reproduces), and the order-1
spline value is the linear interpolation of the two neighbouring samples
along each axis.  The backend route (`backend/app.py` line 286) instead
resizes with `Image.LANCZOS` on an 8-bit image and is not bilinear at
all. -/

/-- Index clamped into `Fin (n+1)` (out-of-range spline weights vanish, so
clamping is inactive for in-range coordinates). -/
def clampIdx (n k : ℕ) : Fin (n+1) := ⟨min k n, by omega⟩

/-- Linear interpolation between `a` and `b` with weight `t`. -/
def lerp (a b t : ℚ) : ℚ := (1 - t) * a + t * b

/-- Order-1 spline (linear) evaluation of the sample sequence `f` at
fractional coordinate `c`, the `scipy.ndimage.map_coordinates` order-1
rule: `(1-t) * f ⌊c⌋ + t * f (⌊c⌋+1)` with `t = c - ⌊c⌋`. -/
def sample1D {n : ℕ} (f : Fin (n+1) → ℚ) (c : ℚ) : ℚ :=
  let k := (⌊c⌋).toNat
  let t := c - k
  lerp (f (clampIdx n k)) (f (clampIdx n (k+1))) t

/-- Fractional source coordinate of `scipy.ndimage.zoom` with the default
`grid_mode=False`: output index `i` maps to `i * n / t` where `n = H - 1`
and `t = T - 1` (scipy substitutes zoom factor 1 when `T = 1`; the ℚ
convention `x / 0 = 0` yields the same coordinate `0` for the only index
`i = 0`). -/
def zoomCoord (n t i : ℕ) : ℚ := (i : ℚ) * n / t

/-- The Resampler `ndimage.zoom(normalized, (T/H, T/W), order=1)` on an
`(H+1)×(W+1)` grid with target size `(Th+1)×(Tw+1)`: the order-1 tensor
spline, evaluated separably along each axis. -/
def zoomResample {H W : ℕ} (g : Grid (H+1) (W+1)) (Th Tw : ℕ) :
    Grid (Th+1) (Tw+1) :=
  fun i j =>
    sample1D (fun k => sample1D (fun l => g k l) (zoomCoord W Tw j.val))
      (zoomCoord H Th i.val)

/-- Bilinear interpolation of `g` at the fractional position `(y, x)`: the
four-neighbour convex combination. -/
def bilinearAt {H W : ℕ} (g : Grid (H+1) (W+1)) (y x : ℚ) : ℚ :=
  let ky := (⌊y⌋).toNat
  let kx := (⌊x⌋).toNat
  let ty := y - ky
  let tx := x - kx
  (1 - ty) * (1 - tx) * g (clampIdx H ky) (clampIdx W kx)
    + (1 - ty) * tx * g (clampIdx H ky) (clampIdx W (kx+1))
    + ty * (1 - tx) * g (clampIdx H (ky+1)) (clampIdx W kx)
    + ty * tx * g (clampIdx H (ky+1)) (clampIdx W (kx+1))

/-- The Resampler as the spec words it (claim C1): bilinear interpolation
at fractional source coordinates `(i * H / T, j * W / T)`, clamped to the
valid index range per the spec's edge policy; written from the spec for
comparison with `zoomResample`. -/
def specResample {H W : ℕ} (g : Grid (H+1) (W+1)) (Th Tw : ℕ) :
    Grid (Th+1) (Tw+1) :=
  fun i j =>
    bilinearAt g (min ((i.val : ℚ) * (H+1) / (Th+1)) H)
      (min ((j.val : ℚ) * (W+1) / (Tw+1)) W)

/-- A 2-row, 1-column grid with samples `0` and `1`. -/
def colGrid : Grid 2 1 := fun i _ => if i.val = 0 then 0 else 1

/-- C1 counterexample: resampling the 2×1 grid `[0; 1]` to 3×3, the code
(`ndimage.zoom` semantics) evaluates output row 1 at source coordinate
`1 * (2-1)/(3-1) = 1/2`, giving `1/2`, while the spec's coordinate
`1 * 2/3` gives `2/3`; the Resampler therefore does not interpolate at
the claimed coordinates. -/
theorem resample_coords_counterexample :
    zoomResample colGrid 2 2 1 0 = 1/2 ∧
    specResample colGrid 2 2 1 0 = 2/3 ∧
    zoomResample colGrid 2 2 1 0 ≠ specResample colGrid 2 2 1 0 := by
  have h1 : zoomResample colGrid 2 2 1 0 = 1/2 := by
    simp only [zoomResample, sample1D, lerp, zoomCoord, clampIdx, colGrid]
    norm_num
  have h2 : specResample colGrid 2 2 1 0 = 2/3 := by
    simp only [specResample, bilinearAt, lerp, clampIdx, colGrid]
    norm_num
  exact ⟨h1, h2, by rw [h1, h2]; norm_num⟩

/-- C1 (amended): the Resampler of the processing scripts is bilinear
(order-1) interpolation along both axes, the same formula whether the
target is larger or smaller than the source, but at fractional source
coordinates `(i * (H-1)/(T-1), j * (W-1)/(T-1))` — not `(i*H/T, j*W/T)`;
the backend route resizes with a Lanczos filter instead. -/
theorem zoomResample_is_bilinear (H W Th Tw : ℕ) (g : Grid (H+1) (W+1))
    (i : Fin (Th+1)) (j : Fin (Tw+1)) :
    zoomResample g Th Tw i j
      = bilinearAt g (zoomCoord H Th i.val) (zoomCoord W Tw j.val) := by
  simp only [zoomResample, bilinearAt, sample1D, lerp]
  ring

lemma sample1D_natCast {n : ℕ} (f : Fin (n+1) → ℚ) (k : Fin (n+1)) :
    sample1D f (k.val : ℚ) = f k := by
  have hk : clampIdx n k.val = k :=
    Fin.ext (by simpa [clampIdx] using Nat.min_eq_left (Nat.lt_succ_iff.mp k.isLt))
  simp only [sample1D, lerp, Int.floor_natCast, Int.toNat_natCast, hk, sub_self]
  ring

lemma zoomCoord_self (H : ℕ) (i : Fin (H+1)) :
    zoomCoord H H i.val = (i.val : ℚ) := by
  unfold zoomCoord
  rcases Nat.eq_zero_or_pos H with h | h
  · subst h
    have hi : i.val = 0 := by omega
    simp [hi]
  · exact mul_div_cancel_right₀ _ (Nat.cast_ne_zero.mpr h.ne')

/-- C8: resampling an `(H+1)×(W+1)` grid to its own size returns the grid
exactly — every source coordinate is integral, so the interpolation
weights degenerate to the identity (exact equality, hence within any
floating-point tolerance). -/
theorem zoomResample_identity (H W : ℕ) (g : Grid (H+1) (W+1)) :
    zoomResample g H W = g := by
  funext i j
  simp only [zoomResample, zoomCoord_self, sample1D_natCast]

end Plantopia
